import Mathlib

/-!
Shallow embedding of the flash-controller driver in
`src/flash/non_trustzone.rs` (stm32-hal).

Two register machines are modelled:

* `Mach` — the non-H7 configuration (the generic `else` branch of the
  `cfg_if` blocks, i.e. the L4/G4-style page-addressed controller), whose
  control register carries the `lock`, `per`, `pnb`, `strt`, `pg`, `mer1`
  fields used by `erase_page`, `erase_bank` and `write_page`.
* `H7Mach` — the H7 configuration (two register banks, sector-addressed),
  used by `erase_sector`.

Driver functions are state transformers; the non-H7 machine additionally
emits a trace of the register and memory accesses the driver performs, so
that ordering claims (key sequence, double-word programming loop) can be
stated exactly.  Hardware reactions (key handshake clearing the lock bit,
an armed erase clearing the selected page to `0xFF`, the busy flag falling
at the end of the polled wait) are folded into the primitive register
operations.
-/

deriving instance DecidableEq for Except

def FLASH_KEY1 : Nat := 0x45670123
def FLASH_KEY2 : Nat := 0xCDEF89AB

inductive Bank where
  | B1
  | B2
deriving DecidableEq, Repr

/-- Possible error states for flash operations (`enum Error` in the source). -/
inductive Error where
  | Busy
  | Illegal
  | EccError
  | PageOutOfRange
  | Failure
deriving DecidableEq, Repr

/-- Calculate the address of the start of a given page (2048-byte pages,
non-H7 variants). -/
def page_to_address (page : Nat) : Nat :=
  0x08000000 + page * 2048

/-- Calculate the address of the start of a given 128 KiB sector (H7). -/
def sector_to_address (sector : Nat) (bank : Bank) : Nat :=
  let starting_pt :=
    match bank with
    | Bank.B1 => 0x08000000
    | Bank.B2 => 0x08100000
  starting_pt + sector * 0x20000

/-- Fields of the flash control register touched by the driver
(non-H7, generic branch). -/
structure CR where
  lock : Bool
  per : Bool
  pnb : Nat
  strt : Bool
  pg : Bool
  mer1 : Bool
deriving DecidableEq, Repr

/-- Fields of the flash status register touched by the driver
(non-H7, generic branch): busy, end-of-operation, and the error flags
cleared by `clear_error_flags` in source order. -/
structure SR where
  bsy : Bool
  eop : Bool
  optverr : Bool
  rderr : Bool
  fasterr : Bool
  miserr : Bool
  pgserr : Bool
  sizerr : Bool
  pgaerr : Bool
  wrperr : Bool
  progerr : Bool
  operr : Bool
deriving DecidableEq, Repr

def SR.zero : SR :=
  ⟨false, false, false, false, false, false, false, false, false, false, false, false⟩

/-- All error flags of the status register are clear (busy and EOP may be
anything). -/
def SR.noErr (sr : SR) : Prop :=
  sr.optverr = false ∧ sr.rderr = false ∧ sr.fasterr = false ∧ sr.miserr = false ∧
  sr.pgserr = false ∧ sr.sizerr = false ∧ sr.pgaerr = false ∧ sr.wrperr = false ∧
  sr.progerr = false ∧ sr.operr = false

instance (sr : SR) : Decidable sr.noErr := by
  unfold SR.noErr
  infer_instance

/-- One register or memory access performed by the driver. -/
inductive Event where
  | readCr (v : CR)
  | writeCr (v : CR)
  | writeKeyr (v : Nat)
  | readSr (v : SR)
  | writeSr (v : SR)
  | memWrite (addr : Nat) (val : Nat)
  | busyWait
deriving DecidableEq, Repr

/-- Machine state for the non-H7 configuration: the registers, the
byte-addressed flash array, the hardware key-handshake progress, and two
hardware behaviour parameters (whether a correct key sequence unlocks the
controller, and whether the hardware raises EOP on completion). -/
structure Mach where
  cr : CR
  sr : SR
  mem : Nat → Nat
  keyState : Nat
  hwUnlockOk : Bool
  hwEop : Bool

namespace Flash

/-- Hardware reaction to a write of the key register: the exact two-word
sequence KEY1 then KEY2 clears the lock bit (when the hardware honours it);
anything else resets the handshake and leaves the controller locked. -/
def keyrWrite (s : Mach) (v : Nat) : Mach :=
  if s.keyState = 0 ∧ v = FLASH_KEY1 then
    { s with keyState := 1 }
  else if s.keyState = 1 ∧ v = FLASH_KEY2 then
    if s.hwUnlockOk then
      { s with keyState := 0, cr := { s.cr with lock := false } }
    else
      { s with keyState := 0 }
  else
    { s with keyState := 0 }

/-- Erase a byte range to the erased value `0xFF` (hardware effect of an
armed erase). -/
def eraseRange (m : Nat → Nat) (base len : Nat) : Nat → Nat :=
  fun a => if base ≤ a ∧ a < base + len then 0xFF else m a

/-- Hardware reaction to a control-register write: on a rising edge of the
start bit, the selected operation runs (page erase when `per`, mass erase
when `mer1`) and the busy flag rises. -/
def crWrite (s : Mach) (c : CR) : Mach × List Event :=
  let fired := c.strt && !s.cr.strt
  let s1 := { s with cr := c }
  let s2 :=
    if fired then
      if c.per then
        { s1 with
          mem := eraseRange s1.mem (page_to_address c.pnb) 2048,
          sr := { s1.sr with bsy := true } }
      else if c.mer1 then
        { s1 with
          mem := eraseRange s1.mem 0x08000000 (256 * 2048),
          sr := { s1.sr with bsy := true } }
      else s1
    else s1
  (s2, [Event.writeCr c])

/-- The driver's `while sr.bsy { }` polling loop: if an operation was in
flight it completes here (busy falls, EOP rises when the hardware raises
it); otherwise nothing happens. -/
def busyWaitStep (s : Mach) : Mach :=
  if s.sr.bsy then
    { s with sr := { s.sr with bsy := false, eop := s.sr.eop || s.hwEop } }
  else s

/-- A volatile 32-bit write to a flash-mapped address: with the program
bit set it programs the four bytes (little-endian) and starts a program
operation; otherwise the flash array is unaffected. -/
def progWrite32 (s : Mach) (addr v : Nat) : Mach × List Event :=
  let s1 :=
    if s.cr.pg then
      { s with
        mem := fun a =>
          if a = addr then v % 256
          else if a = addr + 1 then v / 256 % 256
          else if a = addr + 2 then v / 65536 % 256
          else if a = addr + 3 then v / 16777216 % 256
          else s.mem a,
        sr := { s.sr with bsy := true } }
    else s
  (s1, [Event.memWrite addr v])

/-- `Flash::unlock`: early success when the lock bit already reads clear;
otherwise write KEY1 then KEY2 to the key register and read the lock bit
back, failing when it is still set. -/
def unlock (s : Mach) : Except Error Unit × Mach × List Event :=
  if s.cr.lock = false then
    (Except.ok (), s, [Event.readCr s.cr])
  else
    let s2 := keyrWrite (keyrWrite s FLASH_KEY1) FLASH_KEY2
    let t := [Event.readCr s.cr, Event.writeKeyr FLASH_KEY1,
              Event.writeKeyr FLASH_KEY2, Event.readCr s2.cr]
    if s2.cr.lock = false then
      (Except.ok (), s2, t)
    else
      (Except.error Error.Failure, s2, t)

/-- `Flash::lock`: busy-wait until BSY clears, then set the lock bit. -/
def lock (s : Mach) : Mach × List Event :=
  let s1 := busyWaitStep s
  let s2 := { s1 with cr := { s1.cr with lock := true } }
  (s2, [Event.busyWait, Event.writeCr { s1.cr with lock := true }])

/-- `clear_error_flags` (non-H7 generic branch): read SR once, then write
the acknowledge bit for every error flag found asserted, in source order. -/
def clear_error_flags (s : Mach) : Mach × List Event :=
  let sr := s.sr
  let a0 : Mach × List Event := (s, [Event.readSr sr])
  let a1 := if sr.optverr then
      ({ a0.1 with sr := { a0.1.sr with optverr := false } },
        a0.2 ++ [Event.writeSr { SR.zero with optverr := true }]) else a0
  let a2 := if sr.rderr then
      ({ a1.1 with sr := { a1.1.sr with rderr := false } },
        a1.2 ++ [Event.writeSr { SR.zero with rderr := true }]) else a1
  let a3 := if sr.fasterr then
      ({ a2.1 with sr := { a2.1.sr with fasterr := false } },
        a2.2 ++ [Event.writeSr { SR.zero with fasterr := true }]) else a2
  let a4 := if sr.miserr then
      ({ a3.1 with sr := { a3.1.sr with miserr := false } },
        a3.2 ++ [Event.writeSr { SR.zero with miserr := true }]) else a3
  let a5 := if sr.pgserr then
      ({ a4.1 with sr := { a4.1.sr with pgserr := false } },
        a4.2 ++ [Event.writeSr { SR.zero with pgserr := true }]) else a4
  let a6 := if sr.sizerr then
      ({ a5.1 with sr := { a5.1.sr with sizerr := false } },
        a5.2 ++ [Event.writeSr { SR.zero with sizerr := true }]) else a5
  let a7 := if sr.pgaerr then
      ({ a6.1 with sr := { a6.1.sr with pgaerr := false } },
        a6.2 ++ [Event.writeSr { SR.zero with pgaerr := true }]) else a6
  let a8 := if sr.wrperr then
      ({ a7.1 with sr := { a7.1.sr with wrperr := false } },
        a7.2 ++ [Event.writeSr { SR.zero with wrperr := true }]) else a7
  let a9 := if sr.progerr then
      ({ a8.1 with sr := { a8.1.sr with progerr := false } },
        a8.2 ++ [Event.writeSr { SR.zero with progerr := true }]) else a8
  let a10 := if sr.operr then
      ({ a9.1 with sr := { a9.1.sr with operr := false } },
        a9.2 ++ [Event.writeSr { SR.zero with operr := true }]) else a9
  a10

/-- `Flash::erase_page` (non-H7, generic branch): unlock, reject if busy,
clear stale error flags, write PNB (truncated to 8 bits, `page as u8`)
together with PER, set the start bit, wait for BSY to clear, clear PER,
re-lock. -/
def erase_page (s : Mach) (page : Nat) : Except Error Unit × Mach × List Event :=
  let u := unlock s
  match u.1 with
  | Except.error e => (Except.error e, u.2)
  | Except.ok _ =>
    let s1 := u.2.1
    let t1 := u.2.2
    let sr := s1.sr
    let t2 := t1 ++ [Event.readSr sr]
    if sr.bsy then
      let l := lock s1
      (Except.error Error.Busy, l.1, t2 ++ l.2)
    else
      let c := clear_error_flags s1
      let w1 := crWrite c.1 { c.1.cr with pnb := page % 256, per := true }
      let w2 := crWrite w1.1 { w1.1.cr with strt := true }
      let s6 := busyWaitStep w2.1
      let w3 := crWrite s6 { s6.cr with per := false }
      let l := lock w3.1
      (Except.ok (), l.1, t2 ++ c.2 ++ w1.2 ++ w2.2 ++ [Event.busyWait] ++ w3.2 ++ l.2)

/-- `Flash::erase_bank` (non-H7, G4/L4 branch): unlock, reject if busy,
clear stale error flags, set MER1, set the start bit, wait for BSY to
clear, clear MER1, re-lock.  The bank argument is ignored on the
single-bank register block, as in the source. -/
def erase_bank (s : Mach) (bank : Bank) : Except Error Unit × Mach × List Event :=
  let u := unlock s
  match u.1 with
  | Except.error e => (Except.error e, u.2)
  | Except.ok _ =>
    let s1 := u.2.1
    let t1 := u.2.2
    let sr := s1.sr
    let t2 := t1 ++ [Event.readSr sr]
    if sr.bsy then
      let l := lock s1
      (Except.error Error.Busy, l.1, t2 ++ l.2)
    else
      let c := clear_error_flags s1
      let w1 := crWrite c.1 { c.1.cr with mer1 := true }
      let w2 := crWrite w1.1 { w1.1.cr with strt := true }
      let s6 := busyWaitStep w2.1
      let w3 := crWrite s6 { s6.cr with mer1 := false }
      let l := lock w3.1
      (Except.ok (), l.1, t2 ++ c.2 ++ w1.2 ++ w2.2 ++ [Event.busyWait] ++ w3.2 ++ l.2)

/-- The programming loop of `Flash::write_page` (the `for dword in data`
body): for each 64-bit word write the low half to the current address and
the high half to the next word address, advance by 8 bytes, busy-wait,
then read SR and acknowledge EOP when it is set, before the next pair. -/
def writeLoop (s : Mach) (addr : Nat) (data : List Nat) : Mach × List Event :=
  match data with
  | [] => (s, [])
  | dword :: rest =>
    let w1 := progWrite32 s addr (dword % 4294967296)
    let w2 := progWrite32 w1.1 (addr + 4) (dword / 4294967296 % 4294967296)
    let s3 := busyWaitStep w2.1
    let sr := s3.sr
    let a :=
      if sr.eop then
        ({ s3 with sr := { s3.sr with eop := false } },
          [Event.writeSr { SR.zero with eop := true }])
      else (s3, ([] : List Event))
    let rec_ := writeLoop a.1 (addr + 8) rest
    (rec_.1, w1.2 ++ w2.2 ++ [Event.busyWait, Event.readSr sr] ++ a.2 ++ rec_.2)

/-- `Flash::write_page` (non-H7): unlock, reject if busy, clear stale
error flags, set PG, then run the double-word programming loop starting at
the page's base address, clear PG, re-lock. -/
def write_page (s : Mach) (page : Nat) (data : List Nat) :
    Except Error Unit × Mach × List Event :=
  let u := unlock s
  match u.1 with
  | Except.error e => (Except.error e, u.2)
  | Except.ok _ =>
    let s1 := u.2.1
    let t1 := u.2.2
    let sr := s1.sr
    let t2 := t1 ++ [Event.readSr sr]
    if sr.bsy then
      let l := lock s1
      (Except.error Error.Busy, l.1, t2 ++ l.2)
    else
      let c := clear_error_flags s1
      let w1 := crWrite c.1 { c.1.cr with pg := true }
      let address := page_to_address page
      let lp := writeLoop w1.1 address data
      let w2 := crWrite lp.1 { lp.1.cr with pg := false }
      let l := lock w2.1
      (Except.ok (), l.1, t2 ++ c.2 ++ w1.2 ++ lp.2 ++ w2.2 ++ l.2)

/-- `Flash::read_to_buffer` (non-H7): compute the page base address once,
then fill every byte of the buffer from `addr.offset(offset)` — the loop
body never advances the pointer, exactly as in the source. -/
def read_to_buffer (s : Mach) (page : Nat) (offset : Int) (len : Nat) : List Nat :=
  let addr : Int := Int.ofNat (page_to_address page)
  (List.range len).map (fun _ => s.mem (addr + offset).toNat)

end Flash

/-- H7 per-bank control-register fields touched by the driver. -/
structure H7CR where
  lock : Bool
  ser : Bool
  snb : Nat
  start : Bool
  ber : Bool
deriving DecidableEq, Repr

/-- H7 per-bank status-register fields touched by the driver: busy, queue
wait, and the error flags cleared by the H7 `clear_error_flags`. -/
structure H7SR where
  bsy : Bool
  qw : Bool
  dbeccerr : Bool
  sneccerr1 : Bool
  rdserr : Bool
  rdperr : Bool
  operr : Bool
  incerr : Bool
  strberr : Bool
  pgserr : Bool
  wrperr : Bool
deriving DecidableEq, Repr

/-- One H7 register bank (`FLASH_CR1/2`, `FLASH_SR1/2`). -/
structure H7BankRegs where
  cr : H7CR
  sr : H7SR
deriving DecidableEq, Repr

/-- H7 machine state: two register banks plus the key-handshake progress
and the unlock-honouring hardware parameter.  The driver's `unlock` and
`lock` always address bank 1 (as in the source). -/
structure H7Mach where
  bank1 : H7BankRegs
  bank2 : H7BankRegs
  keyState : Nat
  hwUnlockOk : Bool
deriving DecidableEq, Repr

namespace FlashH7

/-- Hardware reaction to a key-register write (H7, bank-1 lock bit). -/
def keyrWrite (s : H7Mach) (v : Nat) : H7Mach :=
  if s.keyState = 0 ∧ v = FLASH_KEY1 then
    { s with keyState := 1 }
  else if s.keyState = 1 ∧ v = FLASH_KEY2 then
    if s.hwUnlockOk then
      { s with keyState := 0, bank1 := { s.bank1 with cr := { s.bank1.cr with lock := false } } }
    else
      { s with keyState := 0 }
  else
    { s with keyState := 0 }

/-- `Flash::unlock` under the H7 configuration: same logic, bank-1
registers. -/
def unlock (s : H7Mach) : Except Error Unit × H7Mach :=
  if s.bank1.cr.lock = false then
    (Except.ok (), s)
  else
    let s2 := keyrWrite (keyrWrite s FLASH_KEY1) FLASH_KEY2
    if s2.bank1.cr.lock = false then
      (Except.ok (), s2)
    else
      (Except.error Error.Failure, s2)

/-- `Flash::lock` under the H7 configuration: busy-wait on bank-1 BSY,
then set the bank-1 lock bit. -/
def lock (s : H7Mach) : H7Mach :=
  let s1 :=
    if s.bank1.sr.bsy then
      { s with bank1 := { s.bank1 with sr := { s.bank1.sr with bsy := false } } }
    else s
  { s1 with bank1 := { s1.bank1 with cr := { s1.bank1.cr with lock := true } } }

/-- `clear_error_flags` (H7): read SR once, then write the `FLASH_CCR`
clear bit for every error flag found asserted, in source order. -/
def clear_error_flags (rb : H7BankRegs) : H7BankRegs :=
  let sr := rb.sr
  let b1 := if sr.dbeccerr then { rb with sr := { rb.sr with dbeccerr := false } } else rb
  let b2 := if sr.sneccerr1 then { b1 with sr := { b1.sr with sneccerr1 := false } } else b1
  let b3 := if sr.rdserr then { b2 with sr := { b2.sr with rdserr := false } } else b2
  let b4 := if sr.rdperr then { b3 with sr := { b3.sr with rdperr := false } } else b3
  let b5 := if sr.operr then { b4 with sr := { b4.sr with operr := false } } else b4
  let b6 := if sr.incerr then { b5 with sr := { b5.sr with incerr := false } } else b5
  let b7 := if sr.strberr then { b6 with sr := { b6.sr with strberr := false } } else b6
  let b8 := if sr.pgserr then { b7 with sr := { b7.sr with pgserr := false } } else b7
  let b9 := if sr.wrperr then { b8 with sr := { b8.sr with wrperr := false } } else b8
  b9

/-- `Flash::erase_sector` (H7): unlock, select the bank's register block,
clear stale error flags, set SER and SNB (`sector as u8`), set START
(hardware raises QW), wait for QW to clear, re-lock.  There is no busy
check anywhere in this sequence. -/
def erase_sector (s : H7Mach) (sector : Nat) (bank : Bank) :
    Except Error Unit × H7Mach :=
  let u := unlock s
  match u.1 with
  | Except.error e => (Except.error e, u.2)
  | Except.ok _ =>
    let s1 := u.2
    let rb :=
      match bank with
      | Bank.B1 => s1.bank1
      | Bank.B2 => s1.bank2
    let rb := clear_error_flags rb
    let rb := { rb with cr := { rb.cr with ser := true, snb := sector % 256 } }
    let rb := { rb with cr := { rb.cr with start := true },
                        sr := { rb.sr with qw := true } }
    let rb := { rb with sr := { rb.sr with qw := false } }
    let s2 :=
      match bank with
      | Bank.B1 => { s1 with bank1 := rb }
      | Bank.B2 => { s1 with bank2 := rb }
    (Except.ok (), lock s2)

end FlashH7

/-- Modelled from the spec: the flash origin of the address-translation
formula (`base = flash_origin + index * page_size`). -/
def flash_origin : Nat := 0x08000000

/-- Modelled from the spec: legacy/non-dual-bank parts use 2 KiB pages. -/
def page_size : Nat := 2 * 1024

/-- Modelled from the spec: high-density dual-bank parts use 128 KiB
sectors. -/
def sector_size : Nat := 128 * 1024

/-- Modelled from the spec: the fixed per-architecture bank-origin table. -/
def bank_origin : Bank → Nat
  | Bank.B1 => 0x08000000
  | Bank.B2 => 0x08100000

theorem lock_cr_lock (s : Mach) : ((Flash.lock s).1).cr.lock = true := by
  simp [Flash.lock]

theorem lock_sr_bsy (s : Mach) : ((Flash.lock s).1).sr.bsy = false := by
  simp only [Flash.lock, Flash.busyWaitStep]
  split <;> simp_all

theorem unlock_error_lock (s : Mach) (e : Error)
    (h : (Flash.unlock s).1 = Except.error e) :
    ((Flash.unlock s).2.1).cr.lock = true := by
  by_cases hl : s.cr.lock = false
  · simp [Flash.unlock, hl] at h
  · by_cases h2 : (Flash.keyrWrite (Flash.keyrWrite s FLASH_KEY1) FLASH_KEY2).cr.lock = false
    · simp [Flash.unlock, hl, h2] at h
    · simp only [Flash.unlock, hl, h2]
      simp_all

theorem h7_lock_sets (s : H7Mach) : (FlashH7.lock s).bank1.cr.lock = true := by
  simp [FlashH7.lock]

theorem h7_unlock_error_lock (s : H7Mach) (e : Error)
    (h : (FlashH7.unlock s).1 = Except.error e) :
    ((FlashH7.unlock s).2).bank1.cr.lock = true := by
  by_cases hl : s.bank1.cr.lock = false
  · simp [FlashH7.unlock, hl] at h
  · by_cases h2 : (FlashH7.keyrWrite (FlashH7.keyrWrite s FLASH_KEY1) FLASH_KEY2).bank1.cr.lock = false
    · simp [FlashH7.unlock, hl, h2] at h
    · simp only [FlashH7.unlock, hl, h2]
      simp_all

/-- C1: For every mutating call (`erase_page`, `erase_sector`,
`erase_bank`, `write_page`) and every return path (success, `Busy`,
`Failure`), the lock bit is set when the call returns; `lock()` busy-waits
until the busy flag clears and then sets the lock bit. -/
theorem c1_lock_reasserted (s : Mach) (page : Nat) (data : List Nat) (bank : Bank)
    (s7 : H7Mach) (sector : Nat) (bank7 : Bank) :
    ((Flash.lock s).1).sr.bsy = false ∧
    ((Flash.lock s).1).cr.lock = true ∧
    ((Flash.erase_page s page).2.1).cr.lock = true ∧
    ((Flash.erase_bank s bank).2.1).cr.lock = true ∧
    ((Flash.write_page s page data).2.1).cr.lock = true ∧
    ((FlashH7.erase_sector s7 sector bank7).2).bank1.cr.lock = true := by
  refine ⟨lock_sr_bsy s, lock_cr_lock s, ?_, ?_, ?_, ?_⟩
  · unfold Flash.erase_page
    cases h : (Flash.unlock s).1 with
    | error e => simpa [h] using unlock_error_lock s e h
    | ok _ => simp only [h]; split <;> simp [lock_cr_lock]
  · unfold Flash.erase_bank
    cases h : (Flash.unlock s).1 with
    | error e => simpa [h] using unlock_error_lock s e h
    | ok _ => simp only [h]; split <;> simp [lock_cr_lock]
  · unfold Flash.write_page
    cases h : (Flash.unlock s).1 with
    | error e => simpa [h] using unlock_error_lock s e h
    | ok _ => simp only [h]; split <;> simp [lock_cr_lock]
  · unfold FlashH7.erase_sector
    cases h : (FlashH7.unlock s7).1 with
    | error e => simpa [h] using h7_unlock_error_lock s7 e h
    | ok _ => simp only [h]; cases bank7 <;> simp [h7_lock_sets]

/-- C8: address translation is the pure function stated by the spec:
`page_to_address page = flash_origin + page * page_size` with 2 KiB
pages, and `sector_to_address sector bank = bank_origin bank +
sector * sector_size` with 128 KiB sectors and the fixed bank-origin
table (`B1 = 0x08000000`, `B2 = 0x08100000`). -/
theorem c8_address_translation (page sector : Nat) (bank : Bank) :
    page_to_address page = flash_origin + page * page_size ∧
    sector_to_address sector bank = bank_origin bank + sector * sector_size ∧
    bank_origin Bank.B1 = 0x08000000 ∧ bank_origin Bank.B2 = 0x08100000 ∧
    flash_origin = 0x08000000 ∧ page_size = 2048 ∧ sector_size = 0x20000 := by
  cases bank <;>
    simp [page_to_address, sector_to_address, flash_origin, page_size,
      sector_size, bank_origin]

/-- C9: for all valid `(bank, index)` pairs (index below the 8 sectors per
bank), the unit-to-address translation is injective, and within a fixed
bank it is strictly monotonically increasing in the index. -/
theorem c9_translation_injective_monotone :
    (∀ p q : Nat, page_to_address p = page_to_address q → p = q) ∧
    (∀ p q : Nat, p < q → page_to_address p < page_to_address q) ∧
    (∀ (i j : Nat) (a b : Bank), i < 8 → j < 8 →
      sector_to_address i a = sector_to_address j b → i = j ∧ a = b) ∧
    (∀ (i j : Nat) (b : Bank), i < j →
      sector_to_address i b < sector_to_address j b) := by
  refine ⟨?_, ?_, ?_, ?_⟩
  · intro p q h
    simp only [page_to_address] at h
    omega
  · intro p q h
    simp only [page_to_address]
    omega
  · intro i j a b hi hj h
    cases a <;> cases b <;> simp only [sector_to_address] at h
    · exact ⟨by omega, rfl⟩
    · exact absurd h (by omega)
    · exact absurd h (by omega)
    · exact ⟨by omega, rfl⟩
  · intro i j b h
    cases b <;> simp only [sector_to_address] <;> omega

/-- A locked, idle, error-free controller with well-behaved hardware. -/
def mLocked : Mach :=
  { cr := { lock := true, per := false, pnb := 0, strt := false, pg := false, mer1 := false },
    sr := SR.zero,
    mem := fun _ => 0,
    keyState := 0,
    hwUnlockOk := true,
    hwEop := true }

/-- The same controller with the lock bit already clear. -/
def mUnlocked : Mach :=
  { mLocked with cr := { mLocked.cr with lock := false } }

/-- C6: when the lock bit reads set, `unlock` writes exactly the two key
words `0x45670123` then `0xCDEF89AB`, in that order, to the key register
with no other register access in between, then reads the lock bit back and
returns `Failure` iff the lock bit is still set (`Ok` otherwise). -/
theorem c6_unlock_key_sequence (s : Mach) (h : s.cr.lock = true) :
    FLASH_KEY1 = 0x45670123 ∧ FLASH_KEY2 = 0xCDEF89AB ∧
    (Flash.unlock s).2.2 =
      [Event.readCr s.cr, Event.writeKeyr FLASH_KEY1, Event.writeKeyr FLASH_KEY2,
       Event.readCr (Flash.keyrWrite (Flash.keyrWrite s FLASH_KEY1) FLASH_KEY2).cr] ∧
    (Flash.unlock s).2.1 = Flash.keyrWrite (Flash.keyrWrite s FLASH_KEY1) FLASH_KEY2 ∧
    ((Flash.unlock s).1 = Except.error Error.Failure ↔
      (Flash.keyrWrite (Flash.keyrWrite s FLASH_KEY1) FLASH_KEY2).cr.lock = true) ∧
    ((Flash.unlock s).1 = Except.ok () ↔
      (Flash.keyrWrite (Flash.keyrWrite s FLASH_KEY1) FLASH_KEY2).cr.lock = false) := by
  have hl : ¬ (s.cr.lock = false) := by simp [h]
  refine ⟨rfl, rfl, ?_⟩
  by_cases h2 : (Flash.keyrWrite (Flash.keyrWrite s FLASH_KEY1) FLASH_KEY2).cr.lock = false
  · simp [Flash.unlock, hl, h2]
  · simp only [Flash.unlock, hl, h2]
    simp_all

theorem c6_unlock_key_sequence_witness :
    mLocked.cr.lock = true ∧
    (FLASH_KEY1 = 0x45670123 ∧ FLASH_KEY2 = 0xCDEF89AB ∧
    (Flash.unlock mLocked).2.2 =
      [Event.readCr mLocked.cr, Event.writeKeyr FLASH_KEY1, Event.writeKeyr FLASH_KEY2,
       Event.readCr (Flash.keyrWrite (Flash.keyrWrite mLocked FLASH_KEY1) FLASH_KEY2).cr] ∧
    (Flash.unlock mLocked).2.1 =
      Flash.keyrWrite (Flash.keyrWrite mLocked FLASH_KEY1) FLASH_KEY2 ∧
    ((Flash.unlock mLocked).1 = Except.error Error.Failure ↔
      (Flash.keyrWrite (Flash.keyrWrite mLocked FLASH_KEY1) FLASH_KEY2).cr.lock = true) ∧
    ((Flash.unlock mLocked).1 = Except.ok () ↔
      (Flash.keyrWrite (Flash.keyrWrite mLocked FLASH_KEY1) FLASH_KEY2).cr.lock = false)) :=
  ⟨rfl, c6_unlock_key_sequence mLocked rfl⟩

/-- C7: `unlock` is idempotent: if the lock bit already reads clear it
returns success immediately without writing the key register or any other
register, so a second consecutive call after a successful `unlock` is a
no-op success. -/
theorem c7_unlock_idempotent (s : Mach) :
    (s.cr.lock = false →
      Flash.unlock s = (Except.ok (), s, [Event.readCr s.cr])) ∧
    ((Flash.unlock s).1 = Except.ok () →
      Flash.unlock ((Flash.unlock s).2.1) =
        (Except.ok (), (Flash.unlock s).2.1,
          [Event.readCr ((Flash.unlock s).2.1).cr])) := by
  constructor
  · intro h
    simp [Flash.unlock, h]
  · intro h
    have hcl : ((Flash.unlock s).2.1).cr.lock = false := by
      by_cases hl : s.cr.lock = false
      · simpa [Flash.unlock, hl] using hl
      · by_cases h2 : (Flash.keyrWrite (Flash.keyrWrite s FLASH_KEY1) FLASH_KEY2).cr.lock = false
        · simpa [Flash.unlock, hl, h2] using h2
        · simp [Flash.unlock, hl, h2] at h
    generalize (Flash.unlock s).2.1 = t at hcl ⊢
    simp [Flash.unlock, hcl]

theorem c7_unlock_idempotent_witness :
    Flash.unlock mUnlocked = (Except.ok (), mUnlocked, [Event.readCr mUnlocked.cr]) ∧
    (Flash.unlock mLocked).1 = Except.ok () ∧
    Flash.unlock ((Flash.unlock mLocked).2.1) =
      (Except.ok (), (Flash.unlock mLocked).2.1,
        [Event.readCr ((Flash.unlock mLocked).2.1).cr]) :=
  ⟨(c7_unlock_idempotent mUnlocked).1 rfl, rfl,
   (c7_unlock_idempotent mLocked).2 rfl⟩

/-- The expected access pattern of one programming pair at `addr`: the low
32 bits at `addr`, the high 32 bits at `addr + 4`, one busy-wait, one SR
read, and an EOP acknowledge exactly when the observed SR has EOP set. -/
def pairTrace (addr : Nat) (w : Nat) (v : SR) : List Event :=
  [Event.memWrite addr (w % 4294967296),
   Event.memWrite (addr + 4) (w / 4294967296 % 4294967296),
   Event.busyWait, Event.readSr v] ++
  (if v.eop then [Event.writeSr { SR.zero with eop := true }] else [])

/-- Consecutive pairs laid out in order, each 8 bytes past the previous
one: pair N is fully emitted (including its completion wait) before pair
N + 1 begins. -/
def pairsTrace (addr : Nat) : List Nat → List SR → List Event
  | w :: ws, v :: vs => pairTrace addr w v ++ pairsTrace (addr + 8) ws vs
  | _, _ => []

/-- C5: the programming loop of `write_page` processes the 64-bit words in
order: for each word it writes the low 32 bits to the current address,
then the high 32 bits to `address + 4`, advances by 8 bytes, and
busy-waits (acknowledging the operation-complete flag if set) before
issuing the next pair — pair N + 1 is never written before pair N's
completion was observed. -/
theorem c5_write_pairs_ordered (s : Mach) (addr : Nat) (data : List Nat) :
    ∃ srs : List SR, srs.length = data.length ∧
      (Flash.writeLoop s addr data).2 = pairsTrace addr data srs := by
  induction data generalizing s addr with
  | nil => exact ⟨[], rfl, rfl⟩
  | cons w ws ih =>
    set s3 := Flash.busyWaitStep
      (Flash.progWrite32 (Flash.progWrite32 s addr (w % 4294967296)).1
        (addr + 4) (w / 4294967296 % 4294967296)).1 with hs3
    by_cases he : s3.sr.eop
    · obtain ⟨srs, hlen, heq⟩ := ih { s3 with sr := { s3.sr with eop := false } } (addr + 8)
      refine ⟨s3.sr :: srs, by simp [hlen], ?_⟩
      simp only [Flash.writeLoop, ← hs3, he, if_true]
      simp [Flash.progWrite32, heq, pairsTrace, pairTrace, he]
    · obtain ⟨srs, hlen, heq⟩ := ih s3 (addr + 8)
      refine ⟨s3.sr :: srs, by simp [hlen], ?_⟩
      simp only [Flash.writeLoop, ← hs3, he, if_false]
      simp [Flash.progWrite32, heq, pairsTrace, pairTrace, he]

theorem unlock_locked_normal (s : Mach) (hl : ¬ s.cr.lock = false)
    (hk : s.keyState = 0) (hu : s.hwUnlockOk = true) :
    Flash.unlock s =
      (Except.ok (), { s with keyState := 0, cr := { s.cr with lock := false } },
       [Event.readCr s.cr, Event.writeKeyr FLASH_KEY1, Event.writeKeyr FLASH_KEY2,
        Event.readCr { s.cr with lock := false }]) := by
  have h1 : Flash.keyrWrite s FLASH_KEY1 = { s with keyState := 1 } := by
    simp [Flash.keyrWrite, hk]
  have h2 : Flash.keyrWrite { s with keyState := 1 } FLASH_KEY2 =
      { s with keyState := 0, cr := { s.cr with lock := false } } := by
    simp [Flash.keyrWrite, hu, FLASH_KEY1, FLASH_KEY2]
  simp [Flash.unlock, hl, h1, h2]

theorem h7_unlock_ok (s : H7Mach) (hk : s.keyState = 0) (hu : s.hwUnlockOk = true) :
    (FlashH7.unlock s).1 = Except.ok () := by
  by_cases hl : s.bank1.cr.lock = false
  · simp [FlashH7.unlock, hl]
  · have h1 : FlashH7.keyrWrite s FLASH_KEY1 = { s with keyState := 1 } := by
      simp [FlashH7.keyrWrite, hk]
    have h2 : FlashH7.keyrWrite { s with keyState := 1 } FLASH_KEY2 =
        { s with keyState := 0, bank1 := { s.bank1 with cr := { s.bank1.cr with lock := false } } } := by
      simp [FlashH7.keyrWrite, hu, FLASH_KEY1, FLASH_KEY2]
    simp [FlashH7.unlock, hl, h1, h2]

/-- An idle, locked controller whose busy flag is set. -/
def mBusy : Mach := { mLocked with sr := { mLocked.sr with bsy := true } }

/-- An H7 controller, already unlocked and error-free, whose bank-1 busy
flag is set. -/
def h7Busy : H7Mach :=
  { bank1 :=
      { cr := { lock := false, ser := false, snb := 0, start := false, ber := false },
        sr := { bsy := true, qw := false, dbeccerr := false, sneccerr1 := false,
                rdserr := false, rdperr := false, operr := false, incerr := false,
                strberr := false, pgserr := false, wrperr := false } },
    bank2 :=
      { cr := { lock := false, ser := false, snb := 0, start := false, ber := false },
        sr := { bsy := false, qw := false, dbeccerr := false, sneccerr1 := false,
                rdserr := false, rdperr := false, operr := false, incerr := false,
                strberr := false, pgserr := false, wrperr := false } },
    keyState := 0,
    hwUnlockOk := true }

/-- C3 counterexample: with the controller's busy flag set, `erase_sector`
does not return `Busy`: it proceeds, arms the sector-erase enable bit, and
returns success — refuting the claim that every one of the four mutating
operations re-locks and returns `Busy` when busy. -/
theorem c3_erase_sector_ignores_busy :
    h7Busy.bank1.sr.bsy = true ∧
    (FlashH7.erase_sector h7Busy 3 Bank.B1).1 = Except.ok () ∧
    (FlashH7.erase_sector h7Busy 3 Bank.B1).1 ≠ Except.error Error.Busy ∧
    ((FlashH7.erase_sector h7Busy 3 Bank.B1).2).bank1.cr.ser = true := by
  decide

/-- C3 (amended): when the busy flag is set at the initial check,
`erase_page`, `erase_bank` and `write_page` re-lock and return `Busy`,
leaving the control register unchanged except the lock bit and the flash
array untouched (nothing armed or queued); `erase_sector`, however,
performs no busy check and proceeds to a successful return regardless of
the busy flag. -/
theorem c3_busy_rejected (s : Mach) (page : Nat) (data : List Nat) (bank : Bank)
    (s7 : H7Mach) (sector : Nat) (bank7 : Bank)
    (hk : s.keyState = 0) (hu : s.hwUnlockOk = true) (hb : s.sr.bsy = true)
    (hk7 : s7.keyState = 0) (hu7 : s7.hwUnlockOk = true) (hb7 : s7.bank1.sr.bsy = true) :
    ((Flash.erase_page s page).1 = Except.error Error.Busy ∧
     (Flash.erase_page s page).2.1.cr = { s.cr with lock := true } ∧
     (Flash.erase_page s page).2.1.mem = s.mem) ∧
    ((Flash.erase_bank s bank).1 = Except.error Error.Busy ∧
     (Flash.erase_bank s bank).2.1.cr = { s.cr with lock := true } ∧
     (Flash.erase_bank s bank).2.1.mem = s.mem) ∧
    ((Flash.write_page s page data).1 = Except.error Error.Busy ∧
     (Flash.write_page s page data).2.1.cr = { s.cr with lock := true } ∧
     (Flash.write_page s page data).2.1.mem = s.mem) ∧
    (FlashH7.erase_sector s7 sector bank7).1 = Except.ok () := by
  have hsec : (FlashH7.erase_sector s7 sector bank7).1 = Except.ok () := by
    unfold FlashH7.erase_sector
    cases hun : (FlashH7.unlock s7).1 with
    | error e => rw [h7_unlock_ok s7 hk7 hu7] at hun; cases hun
    | ok _ => simp only [hun]
  by_cases hl : s.cr.lock = false
  · have hunlock : Flash.unlock s = (Except.ok (), s, [Event.readCr s.cr]) := by
      simp [Flash.unlock, hl]
    refine ⟨?_, ?_, ?_, hsec⟩ <;>
      simp [Flash.erase_page, Flash.erase_bank, Flash.write_page, hunlock, hb,
        Flash.lock, Flash.busyWaitStep]
  · have hunlock := unlock_locked_normal s hl hk hu
    refine ⟨?_, ?_, ?_, hsec⟩ <;>
      simp [Flash.erase_page, Flash.erase_bank, Flash.write_page, hunlock, hb,
        Flash.lock, Flash.busyWaitStep]

theorem c3_busy_rejected_witness :
    mBusy.keyState = 0 ∧ mBusy.hwUnlockOk = true ∧ mBusy.sr.bsy = true ∧
    h7Busy.keyState = 0 ∧ h7Busy.hwUnlockOk = true ∧ h7Busy.bank1.sr.bsy = true ∧
    (((Flash.erase_page mBusy 5).1 = Except.error Error.Busy ∧
      (Flash.erase_page mBusy 5).2.1.cr = { mBusy.cr with lock := true } ∧
      (Flash.erase_page mBusy 5).2.1.mem = mBusy.mem) ∧
     ((Flash.erase_bank mBusy Bank.B1).1 = Except.error Error.Busy ∧
      (Flash.erase_bank mBusy Bank.B1).2.1.cr = { mBusy.cr with lock := true } ∧
      (Flash.erase_bank mBusy Bank.B1).2.1.mem = mBusy.mem) ∧
     ((Flash.write_page mBusy 5 [7]).1 = Except.error Error.Busy ∧
      (Flash.write_page mBusy 5 [7]).2.1.cr = { mBusy.cr with lock := true } ∧
      (Flash.write_page mBusy 5 [7]).2.1.mem = mBusy.mem) ∧
     (FlashH7.erase_sector h7Busy 2 Bank.B2).1 = Except.ok ()) :=
  ⟨rfl, rfl, rfl, rfl, rfl, rfl,
   c3_busy_rejected mBusy 5 [7] Bank.B1 h7Busy 2 Bank.B2 rfl rfl rfl rfl rfl rfl⟩

theorem clear_error_flags_noErr (s : Mach) (h : s.sr.noErr) :
    Flash.clear_error_flags s = (s, [Event.readSr s.sr]) := by
  obtain ⟨h1, h2, h3, h4, h5, h6, h7, h8, h9, h10⟩ := h
  simp [Flash.clear_error_flags, h1, h2, h3, h4, h5, h6, h7, h8, h9, h10]

/-- C10: `erase_page` truncates the page index to its low 8 bits
(`page as u8`, i.e. `page % 256`) before writing it into the page-number
field, so for any `page ≥ 256` the erase is armed for — and performed
on — `page % 256` rather than the requested page. -/
theorem c10_page_truncation (s : Mach) (page : Nat)
    (hl : s.cr.lock = false) (hb : s.sr.bsy = false) (hstrt : s.cr.strt = false)
    (hne : s.sr.noErr) :
    (Flash.erase_page s page).1 = Except.ok () ∧
    Event.writeCr { s.cr with pnb := page % 256, per := true } ∈
      (Flash.erase_page s page).2.2 ∧
    (Flash.erase_page s page).2.1.mem =
      Flash.eraseRange s.mem (page_to_address (page % 256)) 2048 := by
  have hunlock : Flash.unlock s = (Except.ok (), s, [Event.readCr s.cr]) := by
    simp [Flash.unlock, hl]
  simp [Flash.erase_page, hunlock, hb, clear_error_flags_noErr s hne,
    Flash.crWrite, hstrt, Flash.busyWaitStep, Flash.lock]

theorem c10_page_truncation_witness :
    mUnlocked.cr.lock = false ∧ mUnlocked.sr.bsy = false ∧
    mUnlocked.cr.strt = false ∧ mUnlocked.sr.noErr ∧
    ((Flash.erase_page mUnlocked 300).1 = Except.ok () ∧
     Event.writeCr { mUnlocked.cr with pnb := 300 % 256, per := true } ∈
       (Flash.erase_page mUnlocked 300).2.2 ∧
     (Flash.erase_page mUnlocked 300).2.1.mem =
       Flash.eraseRange mUnlocked.mem (page_to_address (300 % 256)) 2048) :=
  ⟨rfl, rfl, rfl, by decide,
   c10_page_truncation mUnlocked 300 rfl rfl rfl (by decide)⟩

/-- C2 (code bug): instead of rejecting an out-of-range page index with
`PageOutOfRange` before any register write, `erase_page` accepts it,
writes the erase-select fields with the index truncated to 8 bits, erases
the page at `300 % 256 = 44`, and returns success. -/
theorem c2_no_out_of_range_check :
    (Flash.erase_page mUnlocked 300).1 = Except.ok () ∧
    (Flash.erase_page mUnlocked 300).1 ≠ Except.error Error.PageOutOfRange ∧
    Event.writeCr { mUnlocked.cr with pnb := 44, per := true } ∈
      (Flash.erase_page mUnlocked 300).2.2 ∧
    mUnlocked.mem (page_to_address 44) = 0 ∧
    (Flash.erase_page mUnlocked 300).2.1.mem (page_to_address 44) = 0xFF := by
  decide

/-- The four 64-bit words of the end-to-end round-trip scenario. -/
def c4data : List Nat :=
  [0x1122334455667788, 0, 0xFFFFFFFFFFFFFFFF, 0xDEADBEEFDEADBEEF]

/-- The 32 bytes the round-trip scenario expects back, little-endian
pair-wise as written. -/
def c4Expected : List Nat :=
  [0x88, 0x77, 0x66, 0x55, 0x44, 0x33, 0x22, 0x11,
   0, 0, 0, 0, 0, 0, 0, 0,
   0xFF, 0xFF, 0xFF, 0xFF, 0xFF, 0xFF, 0xFF, 0xFF,
   0xEF, 0xBE, 0xAD, 0xDE, 0xEF, 0xBE, 0xAD, 0xDE]

/-- The machine after erasing page 10 of a fresh, locked controller. -/
def c4AfterErase : Mach := (Flash.erase_page mLocked 10).2.1

/-- The machine after then programming the four words at page 10. -/
def c4AfterWrite : Mach := (Flash.write_page c4AfterErase 10 c4data).2.1

/-- C4 (code bug): after erasing page 10 and programming the four words,
the flash array holds exactly the expected 32 little-endian bytes at page
10 — but `read_to_buffer` returns 32 copies of the byte at the starting
address (`0x88`), because its loop body never advances the read pointer,
so the round trip fails. -/
theorem c4_read_to_buffer_stuck :
    (Flash.erase_page mLocked 10).1 = Except.ok () ∧
    (Flash.write_page c4AfterErase 10 c4data).1 = Except.ok () ∧
    (List.range 32).map (fun i => c4AfterWrite.mem (page_to_address 10 + i)) =
      c4Expected ∧
    Flash.read_to_buffer c4AfterWrite 10 0 32 = List.replicate 32 0x88 ∧
    Flash.read_to_buffer c4AfterWrite 10 0 32 ≠ c4Expected := by
  refine ⟨rfl, rfl, by decide, by decide, by decide⟩

theorem c9_translation_injective_monotone_witness :
    page_to_address 2 < page_to_address 3 ∧
    ((3 : Nat) = 3 ∧ Bank.B1 = Bank.B1) ∧
    sector_to_address 1 Bank.B2 < sector_to_address 2 Bank.B2 :=
  ⟨c9_translation_injective_monotone.2.1 2 3 (by decide),
   c9_translation_injective_monotone.2.2.1 3 3 Bank.B1 Bank.B1 (by decide)
     (by decide) rfl,
   c9_translation_injective_monotone.2.2.2 1 2 Bank.B2 (by decide)⟩
